import Mathlib

/-!
Verification development for the dashboard-backend analytics API.

The Python source keeps one in-memory table (a pandas DataFrame) and exposes
aggregation endpoints.  We embed the column-resolution layer (app/shared.py),
the three per-dashboard global-filter engines
(app/dashboards/desempenho_operacional.py, financeiro.py, satisfacao.py)
and the aggregation operations the claims touch.

Modelling conventions:
  * a cell is `Val`: a rational number, a text token, or missing (NaN/None);
  * numeric coercion (pd.to_numeric errors="coerce") is `toNum`:
    unparseable tokens become missing, never an error;
  * datetimes are encoded as rationals; `parseYMD` models pd.to_datetime on a
    yyyy-mm-dd string (the only format the API documents) and `toDate` models
    ensure_datetime applied cell-wise;
  * a pandas boolean-mask filter is `Frame.filterRows`;
  * an HTTPException is the `.error` branch of `Except HErr`, an uncaught
    Python exception (e.g. TypeError from summing text) is status 500.
-/

namespace Dashboard

/-- Cell value of the loaded table: numeric, text, or missing. -/
inductive Val
  | num (q : ℚ)
  | str (s : String)
  | null
deriving DecidableEq, Repr

/-- A row maps physical column names to cell values. -/
abbrev Row := List (String × Val)

/-- Look a column up in a row; absent entries read as missing. -/
def Row.get (r : Row) (c : String) : Val :=
  match r.find? (fun p => p.1 == c) with
  | some p => p.2
  | none => Val.null

/-- The in-memory dataset: named columns and a list of rows. -/
structure Frame where
  cols : List String
  rows : List Row
deriving DecidableEq, Repr

/-- Boolean-mask row filtering (`df = df[mask]`); columns are unchanged. -/
def Frame.filterRows (f : Frame) (p : Row → Bool) : Frame :=
  ⟨f.cols, f.rows.filter p⟩

/-- One column of the frame as a value sequence (`df[col]`). -/
def Frame.col (f : Frame) (c : String) : List Val :=
  f.rows.map (fun r => r.get c)

/-- An HTTP error response (HTTPException in the source; status 500 also
stands for an uncaught exception surfaced by the framework). -/
structure HErr where
  status : ℕ
  detail : String
deriving DecidableEq, Repr

/-- COLUMN_ALIASES from app/shared.py: logical field name to the ordered
candidate list of physical column names. Unknown logical names have no
aliases (`dict.get(logical_name, [])`). -/
def COLUMN_ALIASES : String → List String
  | "order_id" => ["order_id", "id_pedido", "pedido_id", "id"]
  | "order_datetime" => ["order_datetime", "data_pedido", "created_at", "order_date"]
  | "order_date" => ["order_date", "data", "dt", "date"]
  | "platform" => ["platform", "plataforma"]
  | "order_mode" => ["order_mode", "modo_pedido", "channel"]
  | "status" => ["status", "order_status"]
  | "macro_bairro" => ["macro_bairro", "macro_bairros", "macro_bairro_nome"]
  | "total_brl" => ["total_brl", "valor_total", "total"]
  | "num_itens" => ["num_itens", "qtd_itens", "items_count"]
  | "tempo_preparo_minutos" => ["tempo_preparo_minutos", "prep_minutes", "preparo_min"]
  | "actual_delivery_minutes" => ["actual_delivery_minutes", "delivery_minutes", "tempo_entrega_min"]
  | "eta_minutes_quote" => ["eta_minutes_quote", "eta_minutos", "eta_min"]
  | "distance_km" => ["distance_km", "distancia_km", "km"]
  | "platform_commision_pct" => ["platform_commision_pct", "platform_commission_pct", "taxa_plataforma"]
  | "satisfacao_nivel" => ["satisfacao_nivel", "satisfacao", "satisfaction", "nota"]
  | "cliente_id" => ["cliente_id", "customer_id", "id_cliente"]
  | _ => []

/-- resolve_column from app/shared.py.  A non-empty override present in the
dataset wins (Python truthiness: the empty string does not count); otherwise
the first alias present wins; otherwise the result is none, without raising. -/
def resolve_column (f : Frame) (preferred : Option String) (logical_name : String) :
    Option String :=
  match preferred with
  | some p =>
    if p ≠ "" ∧ p ∈ f.cols then some p
    else (COLUMN_ALIASES logical_name).find? (fun a => f.cols.contains a)
  | none => (COLUMN_ALIASES logical_name).find? (fun a => f.cols.contains a)

/-- Every engine resolves the date column as order_datetime first, order_date
second (`resolve_column(df, date_col, "order_datetime") or
resolve_column(df, date_col, "order_date")`). -/
def resolveDate (f : Frame) (date_col : Option String) : Option String :=
  match resolve_column f date_col "order_datetime" with
  | some c => some c
  | none => resolve_column f date_col "order_date"

/-- Parse a decimal literal, modelling pd.to_numeric on a text token: an
optional leading minus sign, digits, and an optional fractional part.  Any
other token fails to parse. -/
def parseNumLit (s : String) : Option ℚ :=
  let core : String → Option ℚ := fun t =>
    match t.splitOn "." with
    | [i] => (i.toNat?).map (fun n => (n : ℚ))
    | [i, fr] =>
      match i.toNat?, fr.toNat? with
      | some ni, some nf => some ((ni : ℚ) + (nf : ℚ) / ((10 : ℚ) ^ fr.length))
      | _, _ => none
    | _ => none
  if s.startsWith "-" then (core (s.drop 1)).map (fun q => -q) else core s

/-- Numeric coercion of one cell (`pd.to_numeric(..., errors="coerce")`):
unparseable values become missing, never an error. -/
def toNum : Val → Option ℚ
  | .num q => some q
  | .str s => parseNumLit s
  | .null => none

/-- Parse a yyyy-mm-dd date string into a rational encoding that preserves
calendar order; models pd.to_datetime on a request bound, whose failure the
engines turn into a 422. -/
def parseYMD (s : String) : Option ℚ :=
  match s.splitOn "-" with
  | [y, m, d] =>
    match y.toNat?, m.toNat?, d.toNat? with
    | some yn, some mn, some dn =>
      if 1 ≤ mn ∧ mn ≤ 12 ∧ 1 ≤ dn ∧ dn ≤ 31 then
        some (((yn * 10000 + mn * 100 + dn : ℕ) : ℚ))
      else none
    | _, _, _ => none
  | _ => none

/-- Datetime coercion of one cell, modelling ensure_datetime row-wise:
already-datetime values pass through, strings are parsed, failures are
missing (NaT). -/
def toDate : Val → Option ℚ
  | .num q => some q
  | .str s => parseYMD s
  | .null => none

/-- Python string conversion of a cell (`.astype(str)`); pandas renders
missing values as the text "nan". -/
def valToStr : Val → String
  | .num q => toString q
  | .str s => s
  | .null => "nan"

/-- Python truthiness of an optional string parameter (`if start_date:`):
absent or empty means not supplied. -/
def truthy : Option String → Bool
  | none => false
  | some s => s ≠ ""

/-- Row predicate of `df = df[sdt >= sd]`: keep rows whose (coerced) date is
at least the start bound; missing dates compare False and are dropped. -/
def dateKeepStart (dc : String) (sd : ℚ) (r : Row) : Bool :=
  match toDate (r.get dc) with
  | some t => sd ≤ t
  | none => false

/-- Row predicate of `df = df[sdt <= ed]`. -/
def dateKeepEnd (dc : String) (ed : ℚ) (r : Row) : Bool :=
  match toDate (r.get dc) with
  | some t => t ≤ ed
  | none => false

/-- The `if start_date:` block: parse the bound (422 on failure) and keep rows
at or after it. -/
def startBoundStep (f : Frame) (dc : String) (start_date : Option String) :
    Except HErr Frame :=
  if truthy start_date then
    match parseYMD (start_date.getD "") with
    | none => .error ⟨422, "start_date inválido. Use yyyy-mm-dd"⟩
    | some sd => .ok (f.filterRows (dateKeepStart dc sd))
  else .ok f

/-- The `if end_date:` block. -/
def endBoundStep (f : Frame) (dc : String) (end_date : Option String) :
    Except HErr Frame :=
  if truthy end_date then
    match parseYMD (end_date.getD "") with
    | none => .error ⟨422, "end_date inválido. Use yyyy-mm-dd"⟩
    | some ed => .ok (f.filterRows (dateKeepEnd dc ed))
  else .ok f

/-- Date-range step shared verbatim by the three filter engines: runs only if
a bound is supplied (truthy), 400 if no date column resolved, 422 on an
unparseable bound, then one boolean-mask filter per supplied bound. -/
def dateStep (f : Frame) (start_date end_date : Option String) (dtc : Option String) :
    Except HErr Frame :=
  if truthy start_date || truthy end_date then
    match dtc with
    | none => .error ⟨400, "Coluna de data não encontrada para aplicar filtro."⟩
    | some dc =>
      match startBoundStep f dc start_date with
      | .error e => .error e
      | .ok f1 => endBoundStep f1 dc end_date
  else .ok f

/-- Row predicate of `df[df[col].astype(str).isin(accepted)]`. -/
def memberKeep (c : String) (accepted : List String) (r : Row) : Bool :=
  accepted.contains (valToStr (r.get c))

/-- Categorical-membership step (platform / macro_bairro / classe_pedido):
runs only when a non-empty accepted list is supplied; 400 when the needed
column did not resolve. -/
def memberStep (f : Frame) (accepted : Option (List String)) (c : Option String)
    (msg : String) : Except HErr Frame :=
  match accepted with
  | some l =>
    if l.length > 0 then
      match c with
      | none => .error ⟨400, msg⟩
      | some cc => .ok (f.filterRows (memberKeep cc l))
    else .ok f
  | none => .ok f

/-- Row predicate of the score-range filter: numeric score within the closed
interval; unparseable or missing scores are dropped. -/
def scoreKeep (c : String) (smin smax : ℚ) (r : Row) : Bool :=
  match toNum (r.get c) with
  | some x => smin ≤ x && x ≤ smax
  | none => false

/-- Core of the score-range filter: default absent bounds to 1 and 5, 422 when
min exceeds max, and filter only when the score column resolved (an
unresolved score column is silently skipped in the source). -/
def scoreCheckAndFilter (f : Frame) (score_min score_max : Option ℚ)
    (scc : Option String) : Except HErr Frame :=
  if score_max.getD 5 < score_min.getD 1 then
    .error ⟨422, "score_min não pode ser maior que score_max"⟩
  else
    match scc with
    | some c => .ok (f.filterRows (scoreKeep c (score_min.getD 1) (score_max.getD 5)))
    | none => .ok f

/-- Score step of the financeiro engine: runs only when a bound was supplied
(`if score_min is not None or score_max is not None:`). -/
def finScoreStep (f : Frame) (score_min score_max : Option ℚ) (scc : Option String) :
    Except HErr Frame :=
  if score_min.isSome || score_max.isSome then
    scoreCheckAndFilter f score_min score_max scc
  else .ok f

/-- Row predicate of the atrasado branch: `(d - e) > thr`, with missing
delivery or eta values comparing False. -/
def lateKeep (dc ec : String) (thr : ℚ) (r : Row) : Bool :=
  match toNum (r.get dc), toNum (r.get ec) with
  | some d, some e => thr < d - e
  | _, _ => false

/-- Row predicate of the no_prazo branch: `(d - e) <= thr`. -/
def onTimeKeep (dc ec : String) (thr : ℚ) (r : Row) : Bool :=
  match toNum (r.get dc), toNum (r.get ec) with
  | some d, some e => d - e ≤ thr
  | _, _ => false

/-- Delivery-status step of the desempenho_operacional engine: 422 on an
unrecognized token, 400 when either needed column is unresolved, threshold
defaults to 0 when not supplied. -/
def statusStep (f : Frame) (delivery_status : Option String)
    (dlc etac : Option String) (threshold_min : Option ℚ) : Except HErr Frame :=
  if truthy delivery_status then
    if delivery_status.getD "" ≠ "atrasado" ∧ delivery_status.getD "" ≠ "no_prazo" then
      .error ⟨422, "delivery_status inválido. Use atrasado|no_prazo"⟩
    else
      match dlc, etac with
      | some dc, some ec =>
        if delivery_status.getD "" == "atrasado" then
          .ok (f.filterRows (lateKeep dc ec (threshold_min.getD 0)))
        else .ok (f.filterRows (onTimeKeep dc ec (threshold_min.getD 0)))
      | _, _ => .error ⟨400, "delivery_status requer delivery_col e eta_col válidos"⟩
  else .ok f

/-- Row predicate of the satisfacao atrasado branch, written `d > e` in the
source (no threshold parameter there). -/
def satLateKeep (dc ec : String) (r : Row) : Bool :=
  match toNum (r.get dc), toNum (r.get ec) with
  | some d, some e => e < d
  | _, _ => false

/-- Row predicate of the satisfacao no_prazo branch (`d <= e`). -/
def satOnTimeKeep (dc ec : String) (r : Row) : Bool :=
  match toNum (r.get dc), toNum (r.get ec) with
  | some d, some e => d ≤ e
  | _, _ => false

/-- Delivery-status step of the satisfacao engine: identical validation, but
the comparison has no grace threshold. -/
def satStatusStep (f : Frame) (delivery_status : Option String)
    (dlc etac : Option String) : Except HErr Frame :=
  if truthy delivery_status then
    if delivery_status.getD "" ≠ "atrasado" ∧ delivery_status.getD "" ≠ "no_prazo" then
      .error ⟨422, "delivery_status inválido. Use atrasado|no_prazo"⟩
    else
      match dlc, etac with
      | some dc, some ec =>
        if delivery_status.getD "" == "atrasado" then
          .ok (f.filterRows (satLateKeep dc ec))
        else .ok (f.filterRows (satOnTimeKeep dc ec))
      | _, _ => .error ⟨400, "delivery_status requer delivery_col e eta_col válidos"⟩
  else .ok f

/-- Filter criteria of the desempenho_operacional engine. -/
structure OpsCriteria where
  start_date : Option String
  end_date : Option String
  platform : Option (List String)
  macro_bairro : Option (List String)
  delivery_status : Option String
  threshold_min : Option ℚ
deriving DecidableEq, Repr

/-- Column overrides accepted by the desempenho_operacional engine. -/
structure OpsOverrides where
  date_col : Option String
  platform_col : Option String
  macro_col : Option String
  delivery_col : Option String
  eta_col : Option String
deriving DecidableEq, Repr

/-- Columns resolved up front by the desempenho_operacional engine and
returned to the caller. -/
structure OpsResolved where
  dtc : Option String
  plc : Option String
  mcc : Option String
  dlc : Option String
  etac : Option String
deriving DecidableEq, Repr

/-- Up-front resolution block of the desempenho_operacional engine. -/
def opsResolve (f : Frame) (o : OpsOverrides) : OpsResolved :=
  ⟨resolveDate f o.date_col,
   resolve_column f o.platform_col "platform",
   resolve_column f o.macro_col "macro_bairro",
   resolve_column f o.delivery_col "actual_delivery_minutes",
   resolve_column f o.eta_col "eta_minutes_quote"⟩

/-- The _apply_global_filters function of
app/dashboards/desempenho_operacional.py: resolve all columns once, then
date range, platform membership, macro_bairro membership, delivery status,
in that order, each on the output of the previous. -/
def opsApplyGlobalFilters (f : Frame) (c : OpsCriteria) (o : OpsOverrides) :
    Except HErr (Frame × OpsResolved) :=
  let rc := opsResolve f o
  match dateStep f c.start_date c.end_date rc.dtc with
  | .error e => .error e
  | .ok f1 =>
    match memberStep f1 c.platform rc.plc
        "Coluna de plataforma não encontrada para aplicar filtro." with
    | .error e => .error e
    | .ok f2 =>
      match memberStep f2 c.macro_bairro rc.mcc
          "Coluna de macro_bairro não encontrada para aplicar filtro." with
      | .error e => .error e
      | .ok f3 =>
        match statusStep f3 c.delivery_status rc.dlc rc.etac c.threshold_min with
        | .error e => .error e
        | .ok f4 => .ok (f4, rc)

/-- Filter criteria of the financeiro engine. -/
structure FinCriteria where
  start_date : Option String
  end_date : Option String
  platform : Option (List String)
  macro_bairro : Option (List String)
  classe_pedido : Option (List String)
  score_min : Option ℚ
  score_max : Option ℚ
deriving DecidableEq, Repr

/-- Column overrides accepted by the financeiro engine. -/
structure FinOverrides where
  date_col : Option String
  platform_col : Option String
  macro_col : Option String
  classe_col : Option String
  score_col : Option String
deriving DecidableEq, Repr

/-- Columns the financeiro engine returns to the caller (the score column is
resolved internally but not returned). -/
structure FinResolved where
  dtc : Option String
  plc : Option String
  mcc : Option String
  cpc : Option String
deriving DecidableEq, Repr

/-- Up-front resolution block of the financeiro engine. -/
def finResolve (f : Frame) (o : FinOverrides) : FinResolved :=
  ⟨resolveDate f o.date_col,
   resolve_column f o.platform_col "platform",
   resolve_column f o.macro_col "macro_bairro",
   resolve_column f o.classe_col "order_mode"⟩

/-- The _apply_global_filters function of app/dashboards/financeiro.py:
date range, platform, macro_bairro, classe_pedido, then the score range
(the score step runs only when a bound was supplied). -/
def finApplyGlobalFilters (f : Frame) (c : FinCriteria) (o : FinOverrides) :
    Except HErr (Frame × FinResolved) :=
  let rc := finResolve f o
  let scc := resolve_column f o.score_col "satisfacao_nivel"
  match dateStep f c.start_date c.end_date rc.dtc with
  | .error e => .error e
  | .ok f1 =>
    match memberStep f1 c.platform rc.plc
        "Coluna de plataforma não encontrada para aplicar filtro." with
    | .error e => .error e
    | .ok f2 =>
      match memberStep f2 c.macro_bairro rc.mcc
          "Coluna de macro_bairro não encontrada para aplicar filtro." with
      | .error e => .error e
      | .ok f3 =>
        match memberStep f3 c.classe_pedido rc.cpc
            "Coluna de classe_pedido não encontrada para aplicar filtro." with
        | .error e => .error e
        | .ok f4 =>
          match finScoreStep f4 c.score_min c.score_max scc with
          | .error e => .error e
          | .ok f5 => .ok (f5, rc)

/-- Filter criteria of the satisfacao engine. -/
structure SatCriteria where
  start_date : Option String
  end_date : Option String
  platform : Option (List String)
  macro_bairro : Option (List String)
  score_min : Option ℚ
  score_max : Option ℚ
  delivery_status : Option String
deriving DecidableEq, Repr

/-- Column overrides accepted by the satisfacao engine. -/
structure SatOverrides where
  date_col : Option String
  platform_col : Option String
  macro_col : Option String
  delivery_col : Option String
  score_col : Option String
  eta_col : Option String
deriving DecidableEq, Repr

/-- Columns the satisfacao engine resolves up front and returns. -/
structure SatResolved where
  dtc : Option String
  plc : Option String
  mcc : Option String
  dlc : Option String
  scc : Option String
  etac : Option String
deriving DecidableEq, Repr

/-- Up-front resolution block of the satisfacao engine. -/
def satResolve (f : Frame) (o : SatOverrides) : SatResolved :=
  ⟨resolveDate f o.date_col,
   resolve_column f o.platform_col "platform",
   resolve_column f o.macro_col "macro_bairro",
   resolve_column f o.delivery_col "actual_delivery_minutes",
   resolve_column f o.score_col "satisfacao_nivel",
   resolve_column f o.eta_col "eta_minutes_quote"⟩

/-- The _apply_global_filters function of app/dashboards/satisfacao.py:
date range, platform, macro_bairro, then the score range UNCONDITIONALLY
(the source has no `if score_min is not None or score_max is not None`
guard there), then delivery status. -/
def satApplyGlobalFilters (f : Frame) (c : SatCriteria) (o : SatOverrides) :
    Except HErr (Frame × SatResolved) :=
  let rc := satResolve f o
  match dateStep f c.start_date c.end_date rc.dtc with
  | .error e => .error e
  | .ok f1 =>
    match memberStep f1 c.platform rc.plc
        "Coluna de plataforma não encontrada para aplicar filtro." with
    | .error e => .error e
    | .ok f2 =>
      match memberStep f2 c.macro_bairro rc.mcc
          "Coluna de macro_bairro não encontrada para aplicar filtro." with
      | .error e => .error e
      | .ok f3 =>
        match scoreCheckAndFilter f3 c.score_min c.score_max rc.scc with
        | .error e => .error e
        | .ok f4 =>
          match satStatusStep f4 c.delivery_status rc.dlc rc.etac with
          | .error e => .error e
          | .ok f5 => .ok (f5, rc)

/-- OpsCriteria with nothing supplied. -/
def opsNoCriteria : OpsCriteria := ⟨none, none, none, none, none, none⟩

/-- FinCriteria with nothing supplied. -/
def finNoCriteria : FinCriteria := ⟨none, none, none, none, none, none, none⟩

/-- SatCriteria with nothing supplied. -/
def satNoCriteria : SatCriteria := ⟨none, none, none, none, none, none, none⟩

/-- OpsOverrides with nothing supplied. -/
def opsNoOverrides : OpsOverrides := ⟨none, none, none, none, none⟩

/-- FinOverrides with nothing supplied. -/
def finNoOverrides : FinOverrides := ⟨none, none, none, none, none⟩

/-- SatOverrides with nothing supplied. -/
def satNoOverrides : SatOverrides := ⟨none, none, none, none, none, none⟩

/-- Mean of a list of rationals (division by a zero length yields 0, the
rational stand-in for the NaN that numpy would produce on no data). -/
def meanQ (xs : List ℚ) : ℚ := xs.sum / (xs.length : ℚ)

/-- Models `float(np.nanmean(pd.to_numeric(col, errors="coerce")))`: coerce
every cell, drop the failures, average the rest. -/
def nanMean (vals : List Val) : ℚ := meanQ (vals.filterMap toNum)

/-- Pairwise differences of two coerced columns with NaN propagation
(`to_numeric(d) - to_numeric(e)`): a difference exists only where both
sides coerce. -/
def pairedDiffs (ds es : List Val) : List ℚ :=
  (ds.zip es).filterMap (fun p =>
    match toNum p.1, toNum p.2 with
    | some x, some y => some (x - y)
    | _, _ => none)

/-- Models `df[col].sum()` on a RAW (uncoerced) column: pandas skips missing
values but summing a text token with numbers raises TypeError, which we model
as none. -/
def seriesRawSum : List Val → Option ℚ
  | [] => some 0
  | v :: l =>
    match seriesRawSum l with
    | none => none
    | some s =>
      match v with
      | .num q => some (s + q)
      | .null => some s
      | .str _ => none

/-- Models `(df[total] * (1 - pd.to_numeric(df[pct], errors="coerce"))).sum()`:
the total column stays raw (a text token raises TypeError, modelled as none),
the pct column is coerced (its failures make the product NaN, which the sum
skips), missing totals likewise propagate to NaN and are skipped. -/
def netRawSum (totals pcts : List Val) : Option ℚ :=
  (totals.zip pcts).foldr (fun p acc =>
    match acc with
    | none => none
    | some s =>
      match p.1 with
      | .str _ => none
      | .null => some s
      | .num t =>
        match toNum p.2 with
        | some pv => some (s + t * (1 - pv))
        | none => some s) (some 0)

/-- Scalar KPIs of the /kpis endpoint of desempenho_operacional.py. -/
structure OpsKpis where
  tempo_medio_preparo : ℚ
  tempo_medio_entrega : ℚ
  atraso_medio : ℚ
  distancia_media : ℚ
  on_time_rate_pct : ℚ
deriving DecidableEq, Repr

/-- The ops_kpis operation of desempenho_operacional.py: global filters, then
per-column coerced means (unresolved columns fall back to 0.0), the mean
delay, and the on-time share over rows where both columns coerce. -/
def ops_kpis (f : Frame) (c : OpsCriteria) (o : OpsOverrides)
    (prep_col distance_col : Option String) (grace_min : ℚ) :
    Except HErr OpsKpis :=
  match opsApplyGlobalFilters f c o with
  | .error e => .error e
  | .ok (fr, rc) =>
    let prep := resolve_column fr prep_col "tempo_preparo_minutos"
    let delivery :=
      match rc.dlc with
      | some d => some d
      | none => resolve_column fr o.delivery_col "actual_delivery_minutes"
    let eta :=
      match rc.etac with
      | some e => some e
      | none => resolve_column fr o.eta_col "eta_minutes_quote"
    let distance := resolve_column fr distance_col "distance_km"
    let tmp := match prep with | some p => nanMean (fr.col p) | none => 0
    let tme := match delivery with | some d => nanMean (fr.col d) | none => 0
    let am :=
      match delivery, eta with
      | some d, some e => meanQ (pairedDiffs (fr.col d) (fr.col e))
      | _, _ => 0
    let dm := match distance with | some d => nanMean (fr.col d) | none => 0
    let otr :=
      match delivery, eta with
      | some d, some e =>
        let pairs := ((fr.col d).zip (fr.col e)).filterMap (fun p =>
          match toNum p.1, toNum p.2 with
          | some x, some y => some (x, y)
          | _, _ => none)
        if pairs.length > 0 then
          (((pairs.filter (fun p => p.1 ≤ p.2 + grace_min)).length : ℚ)
            / (pairs.length : ℚ)) * 100
        else 0
      | _, _ => 0
    .ok ⟨tmp, tme, am, dm, otr⟩

/-- One output row of the grouped late-rate operations. -/
structure LateEntry where
  key : String
  late_count : ℕ
  on_time_count : ℕ
  late_rate : ℚ
deriving DecidableEq, Repr

/-- Models `(late_count / total).replace({inf: nan}).fillna(0.0)`: the 0/0 NaN
and the n/0 infinity both end up as 0; a nonzero total divides normally. -/
def safeRate (lc total : ℕ) : ℚ :=
  if total = 0 then 0 else (lc : ℚ) / (total : ℚ)

/-- Key/lateness pairs feeding the grouped late-rate operations: the group key
is the string-converted cell, the flag is the `(d - e) > thr` mask. -/
def latePairs (fr : Frame) (kc dc ec : String) (thr : ℚ) : List (String × Bool) :=
  fr.rows.map (fun r => (valToStr (r.get kc), lateKeep dc ec thr r))

/-- Grouped aggregation `groupby(key)["late"].agg(["sum","count"])` plus the
derived on_time_count and late_rate columns.  Pandas emits one entry per
distinct key; the emission order is immaterial because the operation re-sorts
by late_rate afterwards. -/
def lateTable (pairs : List (String × Bool)) : List LateEntry :=
  ((pairs.map Prod.fst).dedup).map (fun k =>
    let total := (pairs.filter (fun p => p.1 == k)).length
    let late := (pairs.filter (fun p => p.1 == k && p.2)).length
    ⟨k, late, total - late, safeRate late total⟩)

/-- Insert into a list sorted descending by late_rate. -/
def insertRateDesc (a : LateEntry) : List LateEntry → List LateEntry
  | [] => [a]
  | b :: l => if b.late_rate ≤ a.late_rate then a :: b :: l else b :: insertRateDesc a l

/-- Models `sort_values("late_rate", ascending=False)` (pandas uses an
unstable quicksort; any reordering by the key is a faithful model). -/
def sortByRateDesc (l : List LateEntry) : List LateEntry :=
  l.foldr insertRateDesc []

/-- The late_rate_by_macro_bairro operation of desempenho_operacional.py.  The
endpoint accepts a delivery_status parameter but passes None to the filter
engine; threshold_min is forwarded and reused for the late mask. -/
def late_rate_by_macro_bairro (f : Frame) (c : OpsCriteria) (o : OpsOverrides) :
    Except HErr (List LateEntry) :=
  match opsApplyGlobalFilters f
      ⟨c.start_date, c.end_date, c.platform, c.macro_bairro, none, c.threshold_min⟩ o with
  | .error e => .error e
  | .ok (fr, rc) =>
    match rc.mcc, rc.dlc, rc.etac with
    | some kc, some dc, some ec =>
      .ok (sortByRateDesc (lateTable (latePairs fr kc dc ec (c.threshold_min.getD 0))))
    | _, _, _ => .error ⟨400, "Colunas de macro_bairro/entrega/eta não encontradas."⟩

/-- The late_rate_by_platform operation of desempenho_operacional.py: the
same computation grouped by the platform column (its endpoint has no
delivery_status parameter at all, so the engine again receives None). -/
def late_rate_by_platform (f : Frame) (c : OpsCriteria) (o : OpsOverrides) :
    Except HErr (List LateEntry) :=
  match opsApplyGlobalFilters f
      ⟨c.start_date, c.end_date, c.platform, c.macro_bairro, none, c.threshold_min⟩ o with
  | .error e => .error e
  | .ok (fr, rc) =>
    match rc.plc, rc.dlc, rc.etac with
    | some kc, some dc, some ec =>
      .ok (sortByRateDesc (lateTable (latePairs fr kc dc ec (c.threshold_min.getD 0))))
    | _, _, _ => .error ⟨400, "Colunas de plataforma/entrega/eta não encontradas."⟩

/-- Scalar KPIs of the /kpis endpoint of financeiro.py. -/
structure FinKpis where
  receita_total : ℚ
  receita_liquida : ℚ
  ticket_medio : ℚ
  total_pedidos : ℕ
deriving DecidableEq, Repr

/-- The finance_kpis operation of financeiro.py.  receita_total sums the RAW
resolved total column (`float(df[total_brl_col].sum())`, no to_numeric), so a
text token there raises TypeError, surfaced as a 500; receita_liquida coerces
only the pct factor; ticket_medio divides by the coerced item count. -/
def finance_kpis (f : Frame) (c : FinCriteria) (o : FinOverrides)
    (total_col pct_col qty_col : Option String) : Except HErr FinKpis :=
  match finApplyGlobalFilters f c o with
  | .error e => .error e
  | .ok (fr, _) =>
    let tbc := resolve_column fr total_col "total_brl"
    let pct0 := resolve_column fr pct_col "platform_commision_pct"
    let pct :=
      match pct0 with
      | some p => some p
      | none => resolve_column fr pct_col "platform_commission_pct"
    let nic := resolve_column fr qty_col "num_itens"
    let rt : Except HErr ℚ :=
      match tbc with
      | none => .ok 0
      | some t =>
        match seriesRawSum (fr.col t) with
        | some s => .ok s
        | none => .error ⟨500, "TypeError"⟩
    match rt with
    | .error e => .error e
    | .ok receita_total =>
      let rl : Except HErr ℚ :=
        match tbc, pct with
        | some t, some p =>
          match netRawSum (fr.col t) (fr.col p) with
          | some s => .ok s
          | none => .error ⟨500, "TypeError"⟩
        | _, _ => .ok 0
      match rl with
      | .error e => .error e
      | .ok receita_liquida =>
        let ticket :=
          match tbc, nic with
          | some _, some ni =>
            let itens := ((fr.col ni).filterMap toNum).sum
            if 0 < itens then receita_total / itens else 0
          | _, _ => 0
        .ok ⟨receita_total, receita_liquida, ticket, fr.rows.length⟩

/-- One output row of the top-clients operation. -/
structure SpendEntry where
  key : Val
  spent : ℚ
deriving DecidableEq, Repr

/-- Models `df.groupby(client)[total].sum()`: pandas drops rows with a missing
group key, emits one group per distinct key, and raw-sums each group (a text
token among the totals raises TypeError, modelled as none of the whole
result). -/
def groupRawSum (pairs : List (Val × Val)) : Option (List SpendEntry) :=
  let valid := pairs.filter (fun p => p.1 ≠ Val.null)
  ((valid.map Prod.fst).dedup).mapM (fun k =>
    match seriesRawSum ((valid.filter (fun p => p.1 == k)).map Prod.snd) with
    | some s => some (⟨k, s⟩ : SpendEntry)
    | none => none)

/-- Insert into a list sorted descending by spent. -/
def insertSpentDesc (a : SpendEntry) : List SpendEntry → List SpendEntry
  | [] => [a]
  | b :: l => if b.spent ≤ a.spent then a :: b :: l else b :: insertSpentDesc a l

/-- Models `sort_values("spent", ascending=False)`. -/
def sortBySpentDesc (l : List SpendEntry) : List SpendEntry :=
  l.foldr insertSpentDesc []

/-- Fallback client-name candidates tried by financeiro.finance_top_clients
when the cliente_id logical field does not resolve. -/
def clientFallbacks : List String :=
  ["cliente_nome", "customer_name", "nome_cliente", "cliente", "user_name"]

/-- The finance_top_clients operation of financeiro.py: global filters, then
cliente_id resolution with the name fallbacks, a 400 only for the missing
total column, and the DOCUMENTED empty-list fallback when no client column
exists. -/
def finance_top_clients (f : Frame) (c : FinCriteria) (o : FinOverrides)
    (client_col total_col : Option String) (top_n : ℕ) :
    Except HErr (List SpendEntry) :=
  match finApplyGlobalFilters f c o with
  | .error e => .error e
  | .ok (fr, _) =>
    match resolve_column fr total_col "total_brl" with
    | none => .error ⟨400, "Coluna total_brl não encontrada."⟩
    | some t =>
      match
        (match resolve_column fr client_col "cliente_id" with
         | some cc => some cc
         | none => clientFallbacks.find? (fun a => fr.cols.contains a)) with
      | none => .ok []
      | some cc =>
        match groupRawSum (fr.rows.map (fun r => (r.get cc, r.get t))) with
        | none => .error ⟨500, "TypeError"⟩
        | some entries => .ok ((sortBySpentDesc entries).take top_n)

/-- The finance_top_clients endpoint of app/main.py: NO filters, NO name
fallbacks, and a 400 (not an empty list) when either the client or the total
column fails to resolve. -/
def main_finance_top_clients (f : Frame) (client_col total_col : Option String)
    (top_n : ℕ) : Except HErr (List SpendEntry) :=
  let client := resolve_column f client_col "cliente_id"
  let tbc := resolve_column f total_col "total_brl"
  match client, tbc with
  | some cc, some t =>
    match groupRawSum (f.rows.map (fun r => (r.get cc, r.get t))) with
    | none => .error ⟨500, "TypeError"⟩
    | some entries => .ok ((sortBySpentDesc entries).take top_n)
  | _, _ => .error ⟨400, "Colunas de cliente/total_brl não encontradas."⟩

/-! ### Basic lemmas about frames and filtering -/

theorem filterRows_cols (f : Frame) (p : Row → Bool) :
    (f.filterRows p).cols = f.cols := rfl

theorem mem_filterRows (f : Frame) (p : Row → Bool) (r : Row) :
    r ∈ (f.filterRows p).rows ↔ r ∈ f.rows ∧ p r := List.mem_filter

theorem filterRows_eq_self (f : Frame) (p : Row → Bool)
    (h : ∀ r ∈ f.rows, p r) : f.filterRows p = f := by
  cases f with
  | mk cols rows =>
    simp only [Frame.filterRows, Frame.mk.injEq, true_and]
    exact List.filter_eq_self.mpr h

theorem resolve_column_congr (f g : Frame) (pf : Option String) (l : String)
    (h : f.cols = g.cols) : resolve_column f pf l = resolve_column g pf l := by
  unfold resolve_column
  rw [h]

theorem resolveDate_congr (f g : Frame) (pf : Option String)
    (h : f.cols = g.cols) : resolveDate f pf = resolveDate g pf := by
  unfold resolveDate
  rw [resolve_column_congr f g pf "order_datetime" h,
      resolve_column_congr f g pf "order_date" h]

/-- List.find? returns the first element satisfying the predicate: everything
placed before it in the list fails the predicate. -/
theorem find?_first {α : Type} (p : α → Bool) (l : List α) (a : α)
    (h : l.find? p = some a) :
    p a = true ∧ ∃ pre post, l = pre ++ a :: post ∧ ∀ b ∈ pre, p b = false := by
  induction l with
  | nil => simp [List.find?] at h
  | cons x xs ih =>
    rw [List.find?] at h
    by_cases hx : p x = true
    · rw [hx] at h
      simp only [Option.some.injEq] at h
      subst h
      exact ⟨hx, [], xs, rfl, by simp⟩
    · rw [Bool.of_not_eq_true hx] at h
      simp only at h
      obtain ⟨hpa, pre, post, heq, hpre⟩ := ih h
      exact ⟨hpa, x :: pre, post, by rw [heq]; rfl, by
        intro b hb
        rcases List.mem_cons.mp hb with hb | hb
        · subst hb; exact Bool.of_not_eq_true hx
        · exact hpre b hb⟩

/-! ### Step lemmas: columns preserved, rows filtered, second run stable -/

theorem startBoundStep_ok (f g : Frame) (dc : String) (sd : Option String)
    (h : startBoundStep f dc sd = .ok g) :
    g.cols = f.cols ∧ ∀ r ∈ g.rows, r ∈ f.rows := by
  unfold startBoundStep at h
  split at h
  · split at h
    · simp at h
    · simp only [Except.ok.injEq] at h
      subst h
      exact ⟨rfl, fun r hr => ((mem_filterRows _ _ r).mp hr).1⟩
  · simp only [Except.ok.injEq] at h
    subst h
    exact ⟨rfl, fun r hr => hr⟩

theorem endBoundStep_ok (f g : Frame) (dc : String) (ed : Option String)
    (h : endBoundStep f dc ed = .ok g) :
    g.cols = f.cols ∧ ∀ r ∈ g.rows, r ∈ f.rows := by
  unfold endBoundStep at h
  split at h
  · split at h
    · simp at h
    · simp only [Except.ok.injEq] at h
      subst h
      exact ⟨rfl, fun r hr => ((mem_filterRows _ _ r).mp hr).1⟩
  · simp only [Except.ok.injEq] at h
    subst h
    exact ⟨rfl, fun r hr => hr⟩

theorem dateStep_ok (f g : Frame) (sd ed : Option String) (dtc : Option String)
    (h : dateStep f sd ed dtc = .ok g) :
    g.cols = f.cols ∧ ∀ r ∈ g.rows, r ∈ f.rows := by
  unfold dateStep at h
  split at h
  · cases dtc with
    | none => simp at h
    | some dc =>
      simp only at h
      split at h
      · simp at h
      · rename_i f1 hf1
        obtain ⟨hc1, hs1⟩ := startBoundStep_ok f f1 dc sd hf1
        obtain ⟨hc2, hs2⟩ := endBoundStep_ok f1 g dc ed h
        exact ⟨hc2.trans hc1, fun r hr => hs1 r (hs2 r hr)⟩
  · simp only [Except.ok.injEq] at h
    subst h
    exact ⟨rfl, fun r hr => hr⟩

theorem startBoundStep_restable (f g h' : Frame) (dc : String) (sd : Option String)
    (hfg : startBoundStep f dc sd = .ok g)
    (hsub : ∀ r ∈ h'.rows, r ∈ g.rows) : startBoundStep h' dc sd = .ok h' := by
  unfold startBoundStep at hfg ⊢
  split at hfg
  · rename_i hts
    rw [if_pos hts]
    split at hfg
    · simp at hfg
    · rename_i sdv hp
      simp only [Except.ok.injEq] at hfg
      subst hfg
      simp only [Except.ok.injEq]
      exact filterRows_eq_self h' _
        (fun r hr => ((mem_filterRows f _ r).mp (hsub r hr)).2)
  · rename_i hts
    rw [if_neg hts]

theorem endBoundStep_restable (f g h' : Frame) (dc : String) (ed : Option String)
    (hfg : endBoundStep f dc ed = .ok g)
    (hsub : ∀ r ∈ h'.rows, r ∈ g.rows) : endBoundStep h' dc ed = .ok h' := by
  unfold endBoundStep at hfg ⊢
  split at hfg
  · rename_i hts
    rw [if_pos hts]
    split at hfg
    · simp at hfg
    · rename_i edv hp
      simp only [Except.ok.injEq] at hfg
      subst hfg
      simp only [Except.ok.injEq]
      exact filterRows_eq_self h' _
        (fun r hr => ((mem_filterRows f _ r).mp (hsub r hr)).2)
  · rename_i hts
    rw [if_neg hts]

theorem dateStep_restable (f g h' : Frame) (sd ed : Option String) (dtc : Option String)
    (hfg : dateStep f sd ed dtc = .ok g)
    (hsub : ∀ r ∈ h'.rows, r ∈ g.rows) : dateStep h' sd ed dtc = .ok h' := by
  unfold dateStep at hfg ⊢
  split at hfg
  · rename_i hc
    rw [if_pos hc]
    cases dtc with
    | none => simp at hfg
    | some dc =>
      simp only at hfg ⊢
      split at hfg
      · simp at hfg
      · rename_i f1 hf1
        have hsub1 : ∀ r ∈ h'.rows, r ∈ f1.rows :=
          fun r hr => (endBoundStep_ok f1 g dc ed hfg).2 r (hsub r hr)
        rw [startBoundStep_restable f f1 h' dc sd hf1 hsub1]
        exact endBoundStep_restable f1 g h' dc ed hfg hsub
  · rename_i hc
    rw [if_neg hc]

theorem memberStep_ok (f g : Frame) (acc : Option (List String)) (c : Option String)
    (msg : String) (h : memberStep f acc c msg = .ok g) :
    g.cols = f.cols ∧ ∀ r ∈ g.rows, r ∈ f.rows := by
  unfold memberStep at h
  split at h
  · split at h
    · split at h
      · simp at h
      · simp only [Except.ok.injEq] at h
        subst h
        exact ⟨rfl, fun r hr => ((mem_filterRows _ _ r).mp hr).1⟩
    · simp only [Except.ok.injEq] at h
      subst h
      exact ⟨rfl, fun r hr => hr⟩
  · simp only [Except.ok.injEq] at h
    subst h
    exact ⟨rfl, fun r hr => hr⟩

theorem memberStep_restable (f g h' : Frame) (acc : Option (List String))
    (c : Option String) (msg : String) (hfg : memberStep f acc c msg = .ok g)
    (hsub : ∀ r ∈ h'.rows, r ∈ g.rows) : memberStep h' acc c msg = .ok h' := by
  unfold memberStep at hfg ⊢
  split at hfg
  · rename_i l
    split at hfg
    · rename_i hlen
      rw [if_pos hlen]
      cases c with
      | none => simp at hfg
      | some cc =>
        simp only [Except.ok.injEq] at hfg
        subst hfg
        simp only [Except.ok.injEq]
        exact filterRows_eq_self h' _
          (fun r hr => ((mem_filterRows f _ r).mp (hsub r hr)).2)
    · rename_i hlen
      rw [if_neg hlen]
  · rfl

theorem scoreCheckAndFilter_ok (f g : Frame) (smin smax : Option ℚ)
    (scc : Option String) (h : scoreCheckAndFilter f smin smax scc = .ok g) :
    g.cols = f.cols ∧ ∀ r ∈ g.rows, r ∈ f.rows := by
  unfold scoreCheckAndFilter at h
  split at h
  · simp at h
  · split at h
    · simp only [Except.ok.injEq] at h
      subst h
      exact ⟨rfl, fun r hr => ((mem_filterRows _ _ r).mp hr).1⟩
    · simp only [Except.ok.injEq] at h
      subst h
      exact ⟨rfl, fun r hr => hr⟩

theorem scoreCheckAndFilter_restable (f g h' : Frame) (smin smax : Option ℚ)
    (scc : Option String) (hfg : scoreCheckAndFilter f smin smax scc = .ok g)
    (hsub : ∀ r ∈ h'.rows, r ∈ g.rows) : scoreCheckAndFilter h' smin smax scc = .ok h' := by
  unfold scoreCheckAndFilter at hfg ⊢
  split at hfg
  · simp at hfg
  · rename_i hb
    rw [if_neg hb]
    cases scc with
    | none => rfl
    | some sc =>
      simp only [Except.ok.injEq] at hfg
      subst hfg
      simp only [Except.ok.injEq]
      exact filterRows_eq_self h' _
        (fun r hr => ((mem_filterRows f _ r).mp (hsub r hr)).2)

theorem finScoreStep_ok (f g : Frame) (smin smax : Option ℚ) (scc : Option String)
    (h : finScoreStep f smin smax scc = .ok g) :
    g.cols = f.cols ∧ ∀ r ∈ g.rows, r ∈ f.rows := by
  unfold finScoreStep at h
  split at h
  · exact scoreCheckAndFilter_ok f g smin smax scc h
  · simp only [Except.ok.injEq] at h
    subst h
    exact ⟨rfl, fun r hr => hr⟩

theorem finScoreStep_restable (f g h' : Frame) (smin smax : Option ℚ)
    (scc : Option String) (hfg : finScoreStep f smin smax scc = .ok g)
    (hsub : ∀ r ∈ h'.rows, r ∈ g.rows) : finScoreStep h' smin smax scc = .ok h' := by
  unfold finScoreStep at hfg ⊢
  split at hfg
  · rename_i hc
    rw [if_pos hc]
    exact scoreCheckAndFilter_restable f g h' smin smax scc hfg hsub
  · rename_i hc
    rw [if_neg hc]

theorem statusStep_ok (f g : Frame) (ds : Option String) (dlc etac : Option String)
    (thr : Option ℚ) (h : statusStep f ds dlc etac thr = .ok g) :
    g.cols = f.cols ∧ ∀ r ∈ g.rows, r ∈ f.rows := by
  unfold statusStep at h
  split at h
  · split at h
    · simp at h
    · split at h
      · split at h
        · simp only [Except.ok.injEq] at h
          subst h
          exact ⟨rfl, fun r hr => ((mem_filterRows _ _ r).mp hr).1⟩
        · simp only [Except.ok.injEq] at h
          subst h
          exact ⟨rfl, fun r hr => ((mem_filterRows _ _ r).mp hr).1⟩
      · simp at h
  · simp only [Except.ok.injEq] at h
    subst h
    exact ⟨rfl, fun r hr => hr⟩

theorem statusStep_restable (f g h' : Frame) (ds : Option String)
    (dlc etac : Option String) (thr : Option ℚ)
    (hfg : statusStep f ds dlc etac thr = .ok g)
    (hsub : ∀ r ∈ h'.rows, r ∈ g.rows) : statusStep h' ds dlc etac thr = .ok h' := by
  unfold statusStep at hfg ⊢
  split at hfg
  · rename_i hc
    rw [if_pos hc]
    split at hfg
    · simp at hfg
    · rename_i hb
      rw [if_neg hb]
      split at hfg
      · rename_i dc ec
        split at hfg
        · rename_i hds
          rw [if_pos hds]
          simp only [Except.ok.injEq] at hfg
          subst hfg
          simp only [Except.ok.injEq]
          exact filterRows_eq_self h' _
            (fun r hr => ((mem_filterRows f _ r).mp (hsub r hr)).2)
        · rename_i hds
          rw [if_neg hds]
          simp only [Except.ok.injEq] at hfg
          subst hfg
          simp only [Except.ok.injEq]
          exact filterRows_eq_self h' _
            (fun r hr => ((mem_filterRows f _ r).mp (hsub r hr)).2)
      · simp at hfg
  · rename_i hc
    rw [if_neg hc]

theorem satStatusStep_ok (f g : Frame) (ds : Option String) (dlc etac : Option String)
    (h : satStatusStep f ds dlc etac = .ok g) :
    g.cols = f.cols ∧ ∀ r ∈ g.rows, r ∈ f.rows := by
  unfold satStatusStep at h
  split at h
  · split at h
    · simp at h
    · split at h
      · split at h
        · simp only [Except.ok.injEq] at h
          subst h
          exact ⟨rfl, fun r hr => ((mem_filterRows _ _ r).mp hr).1⟩
        · simp only [Except.ok.injEq] at h
          subst h
          exact ⟨rfl, fun r hr => ((mem_filterRows _ _ r).mp hr).1⟩
      · simp at h
  · simp only [Except.ok.injEq] at h
    subst h
    exact ⟨rfl, fun r hr => hr⟩

theorem satStatusStep_restable (f g h' : Frame) (ds : Option String)
    (dlc etac : Option String) (hfg : satStatusStep f ds dlc etac = .ok g)
    (hsub : ∀ r ∈ h'.rows, r ∈ g.rows) : satStatusStep h' ds dlc etac = .ok h' := by
  unfold satStatusStep at hfg ⊢
  split at hfg
  · rename_i hc
    rw [if_pos hc]
    split at hfg
    · simp at hfg
    · rename_i hb
      rw [if_neg hb]
      split at hfg
      · rename_i dc ec
        split at hfg
        · rename_i hds
          rw [if_pos hds]
          simp only [Except.ok.injEq] at hfg
          subst hfg
          simp only [Except.ok.injEq]
          exact filterRows_eq_self h' _
            (fun r hr => ((mem_filterRows f _ r).mp (hsub r hr)).2)
        · rename_i hds
          rw [if_neg hds]
          simp only [Except.ok.injEq] at hfg
          subst hfg
          simp only [Except.ok.injEq]
          exact filterRows_eq_self h' _
            (fun r hr => ((mem_filterRows f _ r).mp (hsub r hr)).2)
      · simp at hfg
  · rename_i hc
    rw [if_neg hc]

/-! ### Engine-level lemmas -/

theorem opsResolve_congr (f g : Frame) (o : OpsOverrides) (h : f.cols = g.cols) :
    opsResolve f o = opsResolve g o := by
  unfold opsResolve
  rw [resolveDate_congr f g o.date_col h,
      resolve_column_congr f g o.platform_col "platform" h,
      resolve_column_congr f g o.macro_col "macro_bairro" h,
      resolve_column_congr f g o.delivery_col "actual_delivery_minutes" h,
      resolve_column_congr f g o.eta_col "eta_minutes_quote" h]

theorem finResolve_congr (f g : Frame) (o : FinOverrides) (h : f.cols = g.cols) :
    finResolve f o = finResolve g o := by
  unfold finResolve
  rw [resolveDate_congr f g o.date_col h,
      resolve_column_congr f g o.platform_col "platform" h,
      resolve_column_congr f g o.macro_col "macro_bairro" h,
      resolve_column_congr f g o.classe_col "order_mode" h]

theorem satResolve_congr (f g : Frame) (o : SatOverrides) (h : f.cols = g.cols) :
    satResolve f o = satResolve g o := by
  unfold satResolve
  rw [resolveDate_congr f g o.date_col h,
      resolve_column_congr f g o.platform_col "platform" h,
      resolve_column_congr f g o.macro_col "macro_bairro" h,
      resolve_column_congr f g o.delivery_col "actual_delivery_minutes" h,
      resolve_column_congr f g o.score_col "satisfacao_nivel" h,
      resolve_column_congr f g o.eta_col "eta_minutes_quote" h]

theorem opsApply_ok (f fr : Frame) (rc : OpsResolved) (c : OpsCriteria) (o : OpsOverrides)
    (h : opsApplyGlobalFilters f c o = .ok (fr, rc)) :
    rc = opsResolve f o ∧ fr.cols = f.cols ∧ ∀ r ∈ fr.rows, r ∈ f.rows := by
  unfold opsApplyGlobalFilters at h
  simp only [] at h
  split at h
  · simp at h
  · rename_i f1 hd
    split at h
    · simp at h
    · rename_i f2 hm1
      split at h
      · simp at h
      · rename_i f3 hm2
        split at h
        · simp at h
        · rename_i f4 hs
          simp only [Except.ok.injEq, Prod.mk.injEq] at h
          obtain ⟨h4, hrc⟩ := h
          rw [h4] at hs
          obtain ⟨hdc, hds⟩ := dateStep_ok f f1 c.start_date c.end_date _ hd
          obtain ⟨hm1c, hm1s⟩ := memberStep_ok f1 f2 c.platform _ _ hm1
          obtain ⟨hm2c, hm2s⟩ := memberStep_ok f2 f3 c.macro_bairro _ _ hm2
          obtain ⟨hsc, hss⟩ := statusStep_ok f3 fr c.delivery_status _ _ _ hs
          exact ⟨hrc.symm, by rw [hsc, hm2c, hm1c, hdc],
            fun r hr => hds r (hm1s r (hm2s r (hss r hr)))⟩

theorem opsApply_idem (f fr : Frame) (rc : OpsResolved) (c : OpsCriteria) (o : OpsOverrides)
    (h : opsApplyGlobalFilters f c o = .ok (fr, rc)) :
    opsApplyGlobalFilters fr c o = .ok (fr, rc) := by
  have hok := opsApply_ok f fr rc c o h
  unfold opsApplyGlobalFilters at h
  simp only [] at h
  split at h
  · simp at h
  · rename_i f1 hd
    split at h
    · simp at h
    · rename_i f2 hm1
      split at h
      · simp at h
      · rename_i f3 hm2
        split at h
        · simp at h
        · rename_i f4 hs
          simp only [Except.ok.injEq, Prod.mk.injEq] at h
          obtain ⟨h4, hrc⟩ := h
          rw [h4] at hs
          have hsub3 : ∀ r ∈ fr.rows, r ∈ f3.rows :=
            (statusStep_ok f3 fr c.delivery_status _ _ _ hs).2
          have hsub2 : ∀ r ∈ fr.rows, r ∈ f2.rows :=
            fun r hr => (memberStep_ok f2 f3 c.macro_bairro _ _ hm2).2 r (hsub3 r hr)
          have hsub1 : ∀ r ∈ fr.rows, r ∈ f1.rows :=
            fun r hr => (memberStep_ok f1 f2 c.platform _ _ hm1).2 r (hsub2 r hr)
          have hres : opsResolve fr o = opsResolve f o :=
            opsResolve_congr fr f o hok.2.1
          unfold opsApplyGlobalFilters
          rw [hres]
          simp only [dateStep_restable f f1 fr c.start_date c.end_date _ hd hsub1,
            memberStep_restable f1 f2 fr c.platform _ _ hm1 hsub2,
            memberStep_restable f2 f3 fr c.macro_bairro _ _ hm2 hsub3,
            statusStep_restable f3 fr fr c.delivery_status _ _ _ hs
              (fun r hr => hr)]
          rw [hrc]

theorem finApply_ok (f fr : Frame) (rc : FinResolved) (c : FinCriteria) (o : FinOverrides)
    (h : finApplyGlobalFilters f c o = .ok (fr, rc)) :
    rc = finResolve f o ∧ fr.cols = f.cols ∧ ∀ r ∈ fr.rows, r ∈ f.rows := by
  unfold finApplyGlobalFilters at h
  simp only [] at h
  split at h
  · simp at h
  · rename_i f1 hd
    split at h
    · simp at h
    · rename_i f2 hm1
      split at h
      · simp at h
      · rename_i f3 hm2
        split at h
        · simp at h
        · rename_i f4 hm3
          split at h
          · simp at h
          · rename_i f5 hsc
            simp only [Except.ok.injEq, Prod.mk.injEq] at h
            obtain ⟨h5, hrc⟩ := h
            rw [h5] at hsc
            obtain ⟨hdc, hds⟩ := dateStep_ok f f1 c.start_date c.end_date _ hd
            obtain ⟨hm1c, hm1s⟩ := memberStep_ok f1 f2 c.platform _ _ hm1
            obtain ⟨hm2c, hm2s⟩ := memberStep_ok f2 f3 c.macro_bairro _ _ hm2
            obtain ⟨hm3c, hm3s⟩ := memberStep_ok f3 f4 c.classe_pedido _ _ hm3
            obtain ⟨hscc, hscs⟩ := finScoreStep_ok f4 fr c.score_min c.score_max _ hsc
            exact ⟨hrc.symm, by rw [hscc, hm3c, hm2c, hm1c, hdc],
              fun r hr => hds r (hm1s r (hm2s r (hm3s r (hscs r hr))))⟩

theorem finApply_idem (f fr : Frame) (rc : FinResolved) (c : FinCriteria) (o : FinOverrides)
    (h : finApplyGlobalFilters f c o = .ok (fr, rc)) :
    finApplyGlobalFilters fr c o = .ok (fr, rc) := by
  have hok := finApply_ok f fr rc c o h
  unfold finApplyGlobalFilters at h
  simp only [] at h
  split at h
  · simp at h
  · rename_i f1 hd
    split at h
    · simp at h
    · rename_i f2 hm1
      split at h
      · simp at h
      · rename_i f3 hm2
        split at h
        · simp at h
        · rename_i f4 hm3
          split at h
          · simp at h
          · rename_i f5 hsc
            simp only [Except.ok.injEq, Prod.mk.injEq] at h
            obtain ⟨h5, hrc⟩ := h
            rw [h5] at hsc
            have hsub4 : ∀ r ∈ fr.rows, r ∈ f4.rows :=
              (finScoreStep_ok f4 fr c.score_min c.score_max _ hsc).2
            have hsub3 : ∀ r ∈ fr.rows, r ∈ f3.rows :=
              fun r hr => (memberStep_ok f3 f4 c.classe_pedido _ _ hm3).2 r (hsub4 r hr)
            have hsub2 : ∀ r ∈ fr.rows, r ∈ f2.rows :=
              fun r hr => (memberStep_ok f2 f3 c.macro_bairro _ _ hm2).2 r (hsub3 r hr)
            have hsub1 : ∀ r ∈ fr.rows, r ∈ f1.rows :=
              fun r hr => (memberStep_ok f1 f2 c.platform _ _ hm1).2 r (hsub2 r hr)
            have hres : finResolve fr o = finResolve f o :=
              finResolve_congr fr f o hok.2.1
            have hscol : resolve_column fr o.score_col "satisfacao_nivel" =
                resolve_column f o.score_col "satisfacao_nivel" :=
              resolve_column_congr fr f o.score_col "satisfacao_nivel" hok.2.1
            unfold finApplyGlobalFilters
            rw [hres, hscol]
            simp only [dateStep_restable f f1 fr c.start_date c.end_date _ hd hsub1,
              memberStep_restable f1 f2 fr c.platform _ _ hm1 hsub2,
              memberStep_restable f2 f3 fr c.macro_bairro _ _ hm2 hsub3,
              memberStep_restable f3 f4 fr c.classe_pedido _ _ hm3 hsub4,
              finScoreStep_restable f4 fr fr c.score_min c.score_max _ hsc
                (fun r hr => hr)]
            rw [hrc]

theorem satApply_ok (f fr : Frame) (rc : SatResolved) (c : SatCriteria) (o : SatOverrides)
    (h : satApplyGlobalFilters f c o = .ok (fr, rc)) :
    rc = satResolve f o ∧ fr.cols = f.cols ∧ ∀ r ∈ fr.rows, r ∈ f.rows := by
  unfold satApplyGlobalFilters at h
  simp only [] at h
  split at h
  · simp at h
  · rename_i f1 hd
    split at h
    · simp at h
    · rename_i f2 hm1
      split at h
      · simp at h
      · rename_i f3 hm2
        split at h
        · simp at h
        · rename_i f4 hsc
          split at h
          · simp at h
          · rename_i f5 hst
            simp only [Except.ok.injEq, Prod.mk.injEq] at h
            obtain ⟨h5, hrc⟩ := h
            rw [h5] at hst
            obtain ⟨hdc, hds⟩ := dateStep_ok f f1 c.start_date c.end_date _ hd
            obtain ⟨hm1c, hm1s⟩ := memberStep_ok f1 f2 c.platform _ _ hm1
            obtain ⟨hm2c, hm2s⟩ := memberStep_ok f2 f3 c.macro_bairro _ _ hm2
            obtain ⟨hscc, hscs⟩ := scoreCheckAndFilter_ok f3 f4 c.score_min c.score_max _ hsc
            obtain ⟨hstc, hsts⟩ := satStatusStep_ok f4 fr c.delivery_status _ _ hst
            exact ⟨hrc.symm, by rw [hstc, hscc, hm2c, hm1c, hdc],
              fun r hr => hds r (hm1s r (hm2s r (hscs r (hsts r hr))))⟩

theorem satApply_idem (f fr : Frame) (rc : SatResolved) (c : SatCriteria) (o : SatOverrides)
    (h : satApplyGlobalFilters f c o = .ok (fr, rc)) :
    satApplyGlobalFilters fr c o = .ok (fr, rc) := by
  have hok := satApply_ok f fr rc c o h
  unfold satApplyGlobalFilters at h
  simp only [] at h
  split at h
  · simp at h
  · rename_i f1 hd
    split at h
    · simp at h
    · rename_i f2 hm1
      split at h
      · simp at h
      · rename_i f3 hm2
        split at h
        · simp at h
        · rename_i f4 hsc
          split at h
          · simp at h
          · rename_i f5 hst
            simp only [Except.ok.injEq, Prod.mk.injEq] at h
            obtain ⟨h5, hrc⟩ := h
            rw [h5] at hst
            have hsub4 : ∀ r ∈ fr.rows, r ∈ f4.rows :=
              (satStatusStep_ok f4 fr c.delivery_status _ _ hst).2
            have hsub3 : ∀ r ∈ fr.rows, r ∈ f3.rows :=
              fun r hr =>
                (scoreCheckAndFilter_ok f3 f4 c.score_min c.score_max _ hsc).2 r (hsub4 r hr)
            have hsub2 : ∀ r ∈ fr.rows, r ∈ f2.rows :=
              fun r hr => (memberStep_ok f2 f3 c.macro_bairro _ _ hm2).2 r (hsub3 r hr)
            have hsub1 : ∀ r ∈ fr.rows, r ∈ f1.rows :=
              fun r hr => (memberStep_ok f1 f2 c.platform _ _ hm1).2 r (hsub2 r hr)
            have hres : satResolve fr o = satResolve f o :=
              satResolve_congr fr f o hok.2.1
            unfold satApplyGlobalFilters
            rw [hres]
            simp only [dateStep_restable f f1 fr c.start_date c.end_date _ hd hsub1,
              memberStep_restable f1 f2 fr c.platform _ _ hm1 hsub2,
              memberStep_restable f2 f3 fr c.macro_bairro _ _ hm2 hsub3,
              scoreCheckAndFilter_restable f3 f4 fr c.score_min c.score_max _ hsc hsub4,
              satStatusStep_restable f4 fr fr c.delivery_status _ _ hst
                (fun r hr => hr)]
            rw [hrc]

/-! ### Behaviour of the steps when their criterion is absent -/

theorem dateStep_none (f : Frame) (dtc : Option String) :
    dateStep f none none dtc = .ok f := rfl

theorem memberStep_none (f : Frame) (c : Option String) (msg : String) :
    memberStep f none c msg = .ok f := rfl

theorem statusStep_none (f : Frame) (dlc etac : Option String) (thr : Option ℚ) :
    statusStep f none dlc etac thr = .ok f := rfl

theorem satStatusStep_none (f : Frame) (dlc etac : Option String) :
    satStatusStep f none dlc etac = .ok f := rfl

theorem finScoreStep_none (f : Frame) (scc : Option String) :
    finScoreStep f none none scc = .ok f := rfl

/-- With neither bound supplied the satisfacao score step still validates the
default bounds and still filters whenever the score column resolved. -/
theorem scoreCheckAndFilter_none (f : Frame) (scc : Option String) :
    scoreCheckAndFilter f none none scc =
      .ok (match scc with
           | some c => f.filterRows (scoreKeep c 1 5)
           | none => f) := by
  unfold scoreCheckAndFilter
  rw [if_neg (by norm_num : ¬((none : Option ℚ).getD 5 < (none : Option ℚ).getD 1))]
  cases scc <;> rfl

/-! ### Claim C1 -/

/-- A one-row dataset whose score column holds an unparseable token. -/
def C1frame : Frame := ⟨["satisfacao_nivel"], [[("satisfacao_nivel", Val.str "ruim")]]⟩

/-- C1 counterexample: with NO criteria supplied at all, the satisfacao
filter engine still removes the row whose score does not parse into [1, 5],
so the engine does not return the dataset unchanged. -/
theorem C1_counterexample :
    satApplyGlobalFilters C1frame satNoCriteria satNoOverrides =
      .ok (⟨["satisfacao_nivel"], []⟩,
           ⟨none, none, none, none, some "satisfacao_nivel", none⟩) ∧
    C1frame.rows ≠ [] := by
  constructor
  · with_unfolding_all rfl
  · intro hc
    simp [C1frame] at hc

/-- C1 (amended): with no criteria supplied, the desempenho_operacional and
financeiro engines return the dataset unchanged without error; the satisfacao
engine does so only when its score column does not resolve — when it does
resolve, the engine unconditionally keeps exactly the rows whose score parses
into [1, 5]. -/
theorem C1_no_criteria_behaviour (f : Frame) (oo : OpsOverrides)
    (fo : FinOverrides) (so : SatOverrides) :
    opsApplyGlobalFilters f opsNoCriteria oo = .ok (f, opsResolve f oo) ∧
    finApplyGlobalFilters f finNoCriteria fo = .ok (f, finResolve f fo) ∧
    satApplyGlobalFilters f satNoCriteria so =
      .ok ((match resolve_column f so.score_col "satisfacao_nivel" with
            | some sc => f.filterRows (scoreKeep sc 1 5)
            | none => f), satResolve f so) := by
  refine ⟨?_, ?_, ?_⟩
  · unfold opsApplyGlobalFilters
    simp only [opsNoCriteria, dateStep_none, memberStep_none, statusStep_none]
  · unfold finApplyGlobalFilters
    simp only [finNoCriteria, dateStep_none, memberStep_none, finScoreStep_none]
  · unfold satApplyGlobalFilters
    simp only [satNoCriteria, dateStep_none, memberStep_none, scoreCheckAndFilter_none,
      satStatusStep_none]
    cases hs : resolve_column f so.score_col "satisfacao_nivel" with
    | none => simp [satResolve, hs]
    | some sc => simp [satResolve, hs, satStatusStep_none]

/-! ### Claim C8 -/

/-- C8: applying any filter engine a second time, with the same criteria and
overrides, to the frame it produced returns that frame (and the same resolved
columns) unchanged: filtering is idempotent whenever the first run succeeds. -/
theorem C8_filter_idempotent (f : Frame) :
    (∀ (c : OpsCriteria) (o : OpsOverrides) (r : Frame × OpsResolved),
      opsApplyGlobalFilters f c o = .ok r → opsApplyGlobalFilters r.1 c o = .ok r) ∧
    (∀ (c : SatCriteria) (o : SatOverrides) (r : Frame × SatResolved),
      satApplyGlobalFilters f c o = .ok r → satApplyGlobalFilters r.1 c o = .ok r) ∧
    (∀ (c : FinCriteria) (o : FinOverrides) (r : Frame × FinResolved),
      finApplyGlobalFilters f c o = .ok r → finApplyGlobalFilters r.1 c o = .ok r) := by
  refine ⟨?_, ?_, ?_⟩
  · intro c o r h
    obtain ⟨fr, rc⟩ := r
    exact opsApply_idem f fr rc c o h
  · intro c o r h
    obtain ⟨fr, rc⟩ := r
    exact satApply_idem f fr rc c o h
  · intro c o r h
    obtain ⟨fr, rc⟩ := r
    exact finApply_idem f fr rc c o h

/-- Dataset used to witness C8 on non-empty criteria. -/
def C8frame : Frame :=
  ⟨["platform", "satisfacao_nivel"],
   [[("platform", Val.str "A"), ("satisfacao_nivel", Val.num 4)],
    [("platform", Val.str "B"), ("satisfacao_nivel", Val.num 2)]]⟩

/-- Non-empty criteria (a platform membership filter) used to witness C8. -/
def C8criteria : OpsCriteria := ⟨none, none, some ["A"], none, none, none⟩

/-- C8 witness: on a concrete two-row dataset with a non-empty platform
criterion, re-applying the desempenho_operacional engine to its own output
reproduces that output exactly. -/
theorem C8_filter_idempotent_witness :
    opsApplyGlobalFilters
      (⟨["platform", "satisfacao_nivel"],
        [[("platform", Val.str "A"), ("satisfacao_nivel", Val.num 4)]]⟩ : Frame)
      C8criteria opsNoOverrides =
      .ok (⟨["platform", "satisfacao_nivel"],
            [[("platform", Val.str "A"), ("satisfacao_nivel", Val.num 4)]]⟩,
           ⟨none, some "platform", none, none, none⟩) :=
  (C8_filter_idempotent C8frame).1 C8criteria opsNoOverrides
    (⟨["platform", "satisfacao_nivel"],
      [[("platform", Val.str "A"), ("satisfacao_nivel", Val.num 4)]]⟩,
     ⟨none, some "platform", none, none, none⟩)
    (by with_unfolding_all rfl)

/-! ### Claims C2, C3, C9 — the Column Resolver -/

/-- A one-row dataset that carries only the SECOND alias of the platform
logical field. -/
def C2frame : Frame := ⟨["plataforma"], [[("plataforma", Val.str "iFood")]]⟩

/-- C2 counterexample: an explicit override naming the nonexistent column
"colx" does NOT fail with a 400 naming the logical role: resolution silently
falls back to the alias "plataforma", and a request filtering on platform
with that override succeeds. -/
theorem C2_counterexample :
    resolve_column C2frame (some "colx") "platform" = some "plataforma" ∧
    finApplyGlobalFilters C2frame ⟨none, none, some ["iFood"], none, none, none, none⟩
        ⟨none, some "colx", none, none, none⟩ =
      .ok (C2frame, ⟨none, some "plataforma", none, none⟩) := by
  constructor
  · with_unfolding_all rfl
  · with_unfolding_all rfl

/-- C2 (amended): an explicit override naming a column absent from the dataset
is silently ignored — resolution behaves exactly as if no override had been
supplied, falling back to the alias list.  A 400 client error arises only
later, when a supplied criterion requires a column that failed to resolve
entirely (here: the membership step with an unresolved column). -/
theorem C2_override_fallback (f : Frame) (p : String) (l : String)
    (hp : p ∉ f.cols) :
    resolve_column f (some p) l = resolve_column f none l ∧
    ∀ (ps : List String) (msg : String), 0 < ps.length →
      memberStep f (some ps) none msg = .error ⟨400, msg⟩ := by
  constructor
  · simp only [resolve_column]
    rw [if_neg (fun hc => hp hc.2)]
  · intro ps msg hlen
    simp only [memberStep]
    rw [if_pos hlen]

/-- C2 witness: the amended behaviour at the concrete dataset of the
counterexample. -/
theorem C2_override_fallback_witness :
    resolve_column C2frame (some "colx") "platform" =
      resolve_column C2frame none "platform" ∧
    memberStep C2frame (some ["iFood"]) none "m" = .error ⟨400, "m"⟩ :=
  ⟨(C2_override_fallback C2frame "colx" "platform" (by decide)).1,
   (C2_override_fallback C2frame "colx" "platform" (by decide)).2 ["iFood"] "m"
     (by decide)⟩

/-- C3: the resolver contract.  A non-empty override that is a column of the
dataset is returned unchanged; otherwise the result is the first alias of the
logical field present in the dataset, in alias-list order (anything listed
before it is absent); and when no alias is present the result is none —
the function is total, so it never raises. -/
theorem C3_resolver_contract (f : Frame) (pref : Option String) (l : String) :
    (∀ p, pref = some p → p ≠ "" → p ∈ f.cols → resolve_column f pref l = some p) ∧
    ((pref = none ∨ ∃ p, pref = some p ∧ (p = "" ∨ p ∉ f.cols)) →
      resolve_column f pref l =
        (COLUMN_ALIASES l).find? (fun a => f.cols.contains a) ∧
      (∀ a, resolve_column f pref l = some a →
        a ∈ f.cols ∧ ∃ pre post, COLUMN_ALIASES l = pre ++ a :: post ∧
          ∀ b ∈ pre, b ∉ f.cols) ∧
      ((∀ a ∈ COLUMN_ALIASES l, a ∉ f.cols) → resolve_column f pref l = none)) := by
  constructor
  · intro p hp hne hmem
    subst hp
    simp only [resolve_column]
    rw [if_pos ⟨hne, hmem⟩]
  · intro hfall
    have heq : resolve_column f pref l =
        (COLUMN_ALIASES l).find? (fun a => f.cols.contains a) := by
      rcases hfall with hnone | ⟨p, hp, hrest⟩
      · subst hnone
        rfl
      · subst hp
        simp only [resolve_column]
        rcases hrest with hemp | hnm
        · subst hemp
          rw [if_neg (fun hc => hc.1 rfl)]
        · rw [if_neg (fun hc => hnm hc.2)]
    refine ⟨heq, ?_, ?_⟩
    · intro a ha
      rw [heq] at ha
      obtain ⟨hpa, pre, post, hsplit, hpre⟩ :=
        find?_first (fun a => f.cols.contains a) (COLUMN_ALIASES l) a ha
      refine ⟨by simpa using hpa, pre, post, hsplit, ?_⟩
      intro b hb
      have := hpre b hb
      simpa using this
    · intro hnone
      rw [heq]
      exact List.find?_eq_none.mpr (fun x hx => by simpa using hnone x hx)

/-- Dataset of the C3 witness: only the second platform alias is present. -/
def C3frame : Frame := ⟨["plataforma"], []⟩

/-- C3 witness: on a dataset holding only the second platform alias and no
override, resolution returns that alias (first-present-in-list semantics). -/
theorem C3_resolver_contract_witness :
    resolve_column C3frame none "platform" =
      (COLUMN_ALIASES "platform").find? (fun a => C3frame.cols.contains a) ∧
    resolve_column C3frame none "platform" = some "plataforma" := by
  have h := (C3_resolver_contract C3frame none "platform").2 (Or.inl rfl)
  exact ⟨h.1, by rw [h.1]; with_unfolding_all rfl⟩

/-- C9: whenever resolution succeeds, the returned name is a column actually
present in the dataset, and it is either the supplied override or one of the
static aliases of the logical field — never a fabricated name. -/
theorem C9_resolution_invariant (f : Frame) (pref : Option String) (l c : String)
    (h : resolve_column f pref l = some c) :
    c ∈ f.cols ∧ (pref = some c ∨ c ∈ COLUMN_ALIASES l) := by
  cases pref with
  | none =>
    simp only [resolve_column] at h
    have hpa := List.find?_some h
    have hmem := List.mem_of_find?_eq_some h
    exact ⟨by simpa using hpa, Or.inr hmem⟩
  | some p =>
    simp only [resolve_column] at h
    split at h
    · rename_i hc
      simp only [Option.some.injEq] at h
      subst h
      exact ⟨hc.2, Or.inl rfl⟩
    · have hpa := List.find?_some h
      have hmem := List.mem_of_find?_eq_some h
      exact ⟨by simpa using hpa, Or.inr hmem⟩

/-- C9 witness: the invariant instantiated at a dataset resolving total_brl
through its second alias. -/
theorem C9_resolution_invariant_witness :
    "valor_total" ∈ (⟨["valor_total"], []⟩ : Frame).cols ∧
    ((none : Option String) = some "valor_total" ∨
      "valor_total" ∈ COLUMN_ALIASES "total_brl") :=
  C9_resolution_invariant (⟨["valor_total"], []⟩ : Frame) none "total_brl"
    "valor_total" (by with_unfolding_all rfl)

/-! ### Claim C6 -/

/-- C6: with both status columns resolved, the delivery-status filter with
token atrasado keeps exactly the rows whose delta exceeds the threshold
(defaulting to 0 when not supplied) and no_prazo keeps exactly those at or
below it; hence at threshold 0 a row with delivery equal to eta is kept by
no_prazo and dropped by atrasado, and a row with delivery = eta + 0.01 is
kept by atrasado. -/
theorem C6_delivery_status_boundary (f : Frame) (dc ec : String) (thr : Option ℚ)
    (r : Row) (dv ev : ℚ) (hr : r ∈ f.rows)
    (hd : toNum (r.get dc) = some dv) (he : toNum (r.get ec) = some ev) :
    statusStep f (some "atrasado") (some dc) (some ec) thr =
      .ok (f.filterRows (lateKeep dc ec (thr.getD 0))) ∧
    statusStep f (some "no_prazo") (some dc) (some ec) thr =
      .ok (f.filterRows (onTimeKeep dc ec (thr.getD 0))) ∧
    (r ∈ (f.filterRows (lateKeep dc ec (thr.getD 0))).rows ↔
      thr.getD 0 < dv - ev) ∧
    (r ∈ (f.filterRows (onTimeKeep dc ec (thr.getD 0))).rows ↔
      dv - ev ≤ thr.getD 0) ∧
    (dv = ev → lateKeep dc ec 0 r = false ∧ onTimeKeep dc ec 0 r = true) ∧
    (dv = ev + 1/100 → lateKeep dc ec 0 r = true ∧ onTimeKeep dc ec 0 r = false) := by
  have hlk : ∀ t : ℚ, lateKeep dc ec t r = decide (t < dv - ev) := by
    intro t
    simp only [lateKeep, hd, he]
  have hot : ∀ t : ℚ, onTimeKeep dc ec t r = decide (dv - ev ≤ t) := by
    intro t
    simp only [onTimeKeep, hd, he]
  refine ⟨by with_unfolding_all rfl, by with_unfolding_all rfl, ?_, ?_, ?_, ?_⟩
  · rw [mem_filterRows, hlk]
    simp [hr]
  · rw [mem_filterRows, hot]
    simp [hr]
  · intro hde
    subst hde
    rw [hlk, hot]
    norm_num
  · intro hde
    subst hde
    rw [hlk, hot]
    norm_num

/-- Row used in the C6 witness. -/
def C6row : Row :=
  [("actual_delivery_minutes", Val.num 30), ("eta_minutes_quote", Val.num 25)]

/-- Dataset used in the C6 witness. -/
def C6frame : Frame :=
  ⟨["actual_delivery_minutes", "eta_minutes_quote"], [C6row]⟩

/-- C6 witness: the boundary behaviour at a concrete row with delivery 30 and
eta 25 and no threshold supplied. -/
theorem C6_delivery_status_boundary_witness :
    statusStep C6frame (some "atrasado")
        (some "actual_delivery_minutes") (some "eta_minutes_quote") none =
      .ok (C6frame.filterRows
        (lateKeep "actual_delivery_minutes" "eta_minutes_quote"
          ((none : Option ℚ).getD 0))) ∧
    statusStep C6frame (some "no_prazo")
        (some "actual_delivery_minutes") (some "eta_minutes_quote") none =
      .ok (C6frame.filterRows
        (onTimeKeep "actual_delivery_minutes" "eta_minutes_quote"
          ((none : Option ℚ).getD 0))) ∧
    (C6row ∈ (C6frame.filterRows
        (lateKeep "actual_delivery_minutes" "eta_minutes_quote"
          ((none : Option ℚ).getD 0))).rows ↔
      (none : Option ℚ).getD 0 < (30 : ℚ) - 25) ∧
    (C6row ∈ (C6frame.filterRows
        (onTimeKeep "actual_delivery_minutes" "eta_minutes_quote"
          ((none : Option ℚ).getD 0))).rows ↔
      (30 : ℚ) - 25 ≤ (none : Option ℚ).getD 0) ∧
    ((30 : ℚ) = 25 →
      lateKeep "actual_delivery_minutes" "eta_minutes_quote" 0 C6row = false ∧
      onTimeKeep "actual_delivery_minutes" "eta_minutes_quote" 0 C6row = true) ∧
    ((30 : ℚ) = 25 + 1/100 →
      lateKeep "actual_delivery_minutes" "eta_minutes_quote" 0 C6row = true ∧
      onTimeKeep "actual_delivery_minutes" "eta_minutes_quote" 0 C6row = false) :=
  C6_delivery_status_boundary C6frame "actual_delivery_minutes" "eta_minutes_quote"
    none C6row 30 25 (List.mem_singleton.mpr rfl)
    (by with_unfolding_all rfl) (by with_unfolding_all rfl)

/-! ### Claim C4 -/

/-- Summing a raw column that holds a text token anywhere fails (pandas
raises TypeError adding text to numbers). -/
theorem seriesRawSum_token (l₁ l₂ : List Val) (t : String) :
    seriesRawSum (l₁ ++ Val.str t :: l₂) = none := by
  induction l₁ with
  | nil =>
    simp only [List.nil_append, seriesRawSum]
    cases seriesRawSum l₂ <;> rfl
  | cons v l ih =>
    simp only [List.cons_append, seriesRawSum, List.append_eq, ih]

/-- Numeric coercion keeps every purely numeric cell. -/
theorem filterMap_toNum_allNum (l : List Val)
    (h : ∀ v ∈ l, ∃ q : ℚ, v = Val.num q) :
    (l.filterMap toNum).length = l.length := by
  induction l with
  | nil => rfl
  | cons v rest ih =>
    obtain ⟨q, hq⟩ := h v (List.mem_cons_self v rest)
    subst hq
    simp only [List.filterMap_cons, toNum, List.length_cons]
    rw [ih (fun w hw => h w (List.mem_cons_of_mem _ hw))]

/-- Numeric coercion drops exactly the cells that fail to parse. -/
theorem filterMap_toNum_drop_token (pre post : List Val) (t : String)
    (ht : parseNumLit t = none) :
    (pre ++ Val.str t :: post).filterMap toNum = (pre ++ post).filterMap toNum := by
  simp [List.filterMap_append, List.filterMap_cons, toNum, ht]

/-- A dataset whose total column holds a text token among numbers. -/
def C4frame : Frame :=
  ⟨["total_brl"],
   [[("total_brl", Val.num 10)], [("total_brl", Val.str "abc")],
    [("total_brl", Val.num 5)]]⟩

/-- C4 counterexample: the revenue-total KPI sums the RAW resolved total
column (`float(df[total_brl_col].sum())`, no numeric coercion), so the
unparseable token "abc" raises — surfaced as a 500 — instead of being
treated as missing. -/
theorem C4_counterexample :
    finance_kpis C4frame finNoCriteria finNoOverrides none none none =
      .error ⟨500, "TypeError"⟩ := by
  with_unfolding_all rfl

/-- C4 (amended): aggregations that coerce numerically (the nanMean used by
the ops KPIs, and every to_numeric based sum) treat an unparseable token as
missing and exclude exactly that one row, without failing; but the raw sum
used by the revenue-total KPI fails on the same column. -/
theorem C4_coercion_skips_token (pre post : List Val) (t : String)
    (ht : parseNumLit t = none)
    (hnum : ∀ v ∈ pre ++ post, ∃ q : ℚ, v = Val.num q) :
    nanMean (pre ++ Val.str t :: post) = nanMean (pre ++ post) ∧
    ((pre ++ Val.str t :: post).filterMap toNum).length = (pre ++ post).length ∧
    seriesRawSum (pre ++ Val.str t :: post) = none := by
  refine ⟨?_, ?_, seriesRawSum_token pre post t⟩
  · unfold nanMean
    rw [filterMap_toNum_drop_token pre post t ht]
  · rw [filterMap_toNum_drop_token pre post t ht]
    exact filterMap_toNum_allNum (pre ++ post) hnum

/-- C4 witness: the amended behaviour on the concrete column 10, "abc", 5. -/
theorem C4_coercion_skips_token_witness :
    nanMean ([Val.num 10] ++ Val.str "abc" :: [Val.num 5]) =
      nanMean ([Val.num 10] ++ [Val.num 5]) ∧
    (([Val.num 10] ++ Val.str "abc" :: [Val.num 5]).filterMap toNum).length =
      ([Val.num 10] ++ [Val.num 5]).length ∧
    seriesRawSum ([Val.num 10] ++ Val.str "abc" :: [Val.num 5]) = none :=
  C4_coercion_skips_token [Val.num 10] [Val.num 5] "abc"
    (by with_unfolding_all rfl)
    (by
      intro v hv
      simp only [List.singleton_append, List.mem_cons, List.mem_singleton,
        List.not_mem_nil, or_false] at hv
      rcases hv with rfl | rfl
      · exact ⟨10, rfl⟩
      · exact ⟨5, rfl⟩)

/-! ### Claim C5 -/

/-- A dataset with a total column but no client column of any kind. -/
def C5frame : Frame := ⟨["total_brl"], [[("total_brl", Val.num 10)]]⟩

/-- C5 counterexample: the main-module top-clients endpoint fails with a 400
when no client-identifier column resolves, even though the total column
resolves — it does not return an empty list. -/
theorem C5_counterexample :
    main_finance_top_clients C5frame none none 10 =
      .error ⟨400, "Colunas de cliente/total_brl não encontradas."⟩ := by
  with_unfolding_all rfl

/-- C5 (amended): the financeiro top-clients operation implements the
documented empty-list fallback: when the filters succeed, no client column
resolves (neither a cliente_id alias nor any name fallback) and the total
column resolves, it returns an empty list instead of an error.  The older
main-module endpoint instead fails with a 400 whenever its cliente_id
resolution fails. -/
theorem C5_top_clients_fallback (f fr : Frame) (rc : FinResolved)
    (c : FinCriteria) (o : FinOverrides) (client_col total_col : Option String)
    (tc : String) (n : ℕ)
    (hfil : finApplyGlobalFilters f c o = .ok (fr, rc))
    (hcli : resolve_column fr client_col "cliente_id" = none)
    (hfb : ∀ a ∈ clientFallbacks, a ∉ fr.cols)
    (htot : resolve_column fr total_col "total_brl" = some tc) :
    finance_top_clients f c o client_col total_col n = .ok [] ∧
    ∀ (g : Frame) (cc tcol : Option String) (m : ℕ),
      resolve_column g cc "cliente_id" = none →
      main_finance_top_clients g cc tcol m =
        .error ⟨400, "Colunas de cliente/total_brl não encontradas."⟩ := by
  constructor
  · have hfind : clientFallbacks.find? (fun a => fr.cols.contains a) = none :=
      List.find?_eq_none.mpr (fun x hx => by simpa using hfb x hx)
    simp only [finance_top_clients, hfil, htot, hcli, hfind]
  · intro g cc tcol m hg
    simp only [main_finance_top_clients, hg]

/-- C5 witness: both behaviours at the concrete client-less dataset. -/
theorem C5_top_clients_fallback_witness :
    finance_top_clients C5frame finNoCriteria finNoOverrides none none 10 = .ok [] ∧
    main_finance_top_clients C5frame none none 10 =
      .error ⟨400, "Colunas de cliente/total_brl não encontradas."⟩ := by
  have h := C5_top_clients_fallback C5frame C5frame ⟨none, none, none, none⟩
    finNoCriteria finNoOverrides none none "total_brl" 10
    (by with_unfolding_all rfl) (by with_unfolding_all rfl)
    (by decide) (by with_unfolding_all rfl)
  exact ⟨h.1, h.2 C5frame none none 10 (by with_unfolding_all rfl)⟩

/-! ### Grouped late-rate lemmas (claims C7 and C10) -/

theorem mem_insertRateDesc (a b : LateEntry) (l : List LateEntry) :
    b ∈ insertRateDesc a l ↔ b = a ∨ b ∈ l := by
  induction l with
  | nil => simp [insertRateDesc]
  | cons c l ih =>
    simp only [insertRateDesc]
    split
    · simp only [List.mem_cons]
    · simp only [List.mem_cons, ih]
      tauto

theorem mem_sortByRateDesc (l : List LateEntry) (b : LateEntry) :
    b ∈ sortByRateDesc l ↔ b ∈ l := by
  unfold sortByRateDesc
  induction l with
  | nil => simp
  | cons c l ih =>
    simp only [List.foldr_cons, mem_insertRateDesc, ih, List.mem_cons]

theorem length_filter_map_eq {α β : Type} (g : α → β) (p : β → Bool) (l : List α) :
    ((l.map g).filter p).length = (l.filter (fun a => p (g a))).length := by
  induction l with
  | nil => rfl
  | cons a l ih =>
    cases hpa : p (g a) <;>
      simp [List.filter_cons, hpa, ih]

theorem late_le_total (pairs : List (String × Bool)) (k : String) :
    (pairs.filter (fun p => p.1 == k && p.2)).length ≤
      (pairs.filter (fun p => p.1 == k)).length := by
  induction pairs with
  | nil => simp
  | cons p l ih =>
    by_cases h1 : (p.1 == k) = true
    · by_cases h2 : p.2 = true
      · simp [List.filter_cons, h1, h2]
        omega
      · simp [List.filter_cons, h1, Bool.of_not_eq_true h2]
        omega
    · simp [List.filter_cons, Bool.of_not_eq_true h1]
      exact ih

theorem total_pos_of_mem (pairs : List (String × Bool)) (k : String)
    (hk : k ∈ pairs.map Prod.fst) :
    0 < (pairs.filter (fun p => p.1 == k)).length := by
  obtain ⟨p, hp, hpk⟩ := List.mem_map.mp hk
  have hmem : p ∈ pairs.filter (fun p => p.1 == k) :=
    List.mem_filter.mpr ⟨hp, by simp [hpk]⟩
  exact List.length_pos.mpr (List.ne_nil_of_mem hmem)

theorem safeRate_bounds (lc total : ℕ) (h : lc ≤ total) :
    0 ≤ safeRate lc total ∧ safeRate lc total ≤ 1 := by
  unfold safeRate
  split
  · norm_num
  · rename_i h0
    have hpos : (0 : ℚ) < (total : ℚ) := by
      exact_mod_cast Nat.pos_of_ne_zero h0
    constructor
    · positivity
    · rw [div_le_one hpos]
      exact_mod_cast h

/-- Every entry of the grouped late-rate table: its counts are the filtered
group counts, its rate is the safe division, and its key occurs among the
pair keys. -/
theorem lateTable_mem (pairs : List (String × Bool)) (e : LateEntry)
    (he : e ∈ lateTable pairs) :
    e.late_count = (pairs.filter (fun p => p.1 == e.key && p.2)).length ∧
    e.on_time_count =
      (pairs.filter (fun p => p.1 == e.key)).length - e.late_count ∧
    e.late_rate =
      safeRate e.late_count (pairs.filter (fun p => p.1 == e.key)).length ∧
    e.key ∈ pairs.map Prod.fst := by
  unfold lateTable at he
  obtain ⟨k, hk, hek⟩ := List.mem_map.mp he
  subst hek
  exact ⟨rfl, rfl, rfl, List.mem_dedup.mp hk⟩

/-- Derived facts about a grouped late-rate entry: positive total, the count
identity, the division form of the rate, and the [0, 1] bounds. -/
theorem lateTable_entry_props (pairs : List (String × Bool)) (e : LateEntry)
    (he : e ∈ lateTable pairs) :
    0 < e.late_count + e.on_time_count ∧
    e.late_count + e.on_time_count = (pairs.filter (fun p => p.1 == e.key)).length ∧
    e.late_rate = (e.late_count : ℚ) / ((e.late_count + e.on_time_count : ℕ) : ℚ) ∧
    0 ≤ e.late_rate ∧ e.late_rate ≤ 1 := by
  obtain ⟨hlc, hoc, hrate, hkey⟩ := lateTable_mem pairs e he
  have hle : e.late_count ≤ (pairs.filter (fun p => p.1 == e.key)).length := by
    rw [hlc]
    exact late_le_total pairs e.key
  have htot : e.late_count + e.on_time_count =
      (pairs.filter (fun p => p.1 == e.key)).length := by
    rw [hoc]
    omega
  have hpos := total_pos_of_mem pairs e.key hkey
  have hbounds := safeRate_bounds e.late_count _ hle
  refine ⟨by omega, htot, ?_, ?_, ?_⟩
  · rw [hrate, htot]
    unfold safeRate
    rw [if_neg (by omega)]
  · rw [hrate]
    exact hbounds.1
  · rw [hrate]
    exact hbounds.2

/-- Success shape of late_rate_by_macro_bairro: the engine ran with delivery_status
forced to None, the three needed columns resolved, and the output is the
sorted grouped table over the filtered frame. -/
theorem late_rate_by_macro_ok (f : Frame) (c : OpsCriteria) (o : OpsOverrides)
    (out : List LateEntry) (h : late_rate_by_macro_bairro f c o = .ok out) :
    ∃ fr rc kc dc ec,
      opsApplyGlobalFilters f
        ⟨c.start_date, c.end_date, c.platform, c.macro_bairro, none, c.threshold_min⟩ o =
        .ok (fr, rc) ∧
      rc.mcc = some kc ∧ rc.dlc = some dc ∧ rc.etac = some ec ∧
      out = sortByRateDesc (lateTable (latePairs fr kc dc ec (c.threshold_min.getD 0))) := by
  unfold late_rate_by_macro_bairro at h
  split at h
  · simp at h
  · rename_i fr rc happ
    split at h
    · rename_i kc dc ec hm hd he2
      simp only [Except.ok.injEq] at h
      exact ⟨fr, rc, kc, dc, ec, happ, hm, hd, he2, h.symm⟩
    · simp at h

/-- Success shape of late_rate_by_platform. -/
theorem late_rate_by_platform_ok (f : Frame) (c : OpsCriteria) (o : OpsOverrides)
    (out : List LateEntry) (h : late_rate_by_platform f c o = .ok out) :
    ∃ fr rc kc dc ec,
      opsApplyGlobalFilters f
        ⟨c.start_date, c.end_date, c.platform, c.macro_bairro, none, c.threshold_min⟩ o =
        .ok (fr, rc) ∧
      rc.plc = some kc ∧ rc.dlc = some dc ∧ rc.etac = some ec ∧
      out = sortByRateDesc (lateTable (latePairs fr kc dc ec (c.threshold_min.getD 0))) := by
  unfold late_rate_by_platform at h
  split at h
  · simp at h
  · rename_i fr rc happ
    split at h
    · rename_i kc dc ec hm hd he2
      simp only [Except.ok.injEq] at h
      exact ⟨fr, rc, kc, dc, ec, happ, hm, hd, he2, h.symm⟩
    · simp at h

/-! ### Claim C7 -/

/-- C7: in both grouped late-rate operations, every reported group has a
positive total late_count + on_time_count, its late_rate equals late_count
divided by that total, and the guarded division used there maps a zero
denominator to 0 (never NaN or infinity). -/
theorem C7_late_rate_division (f : Frame) (c : OpsCriteria) (o : OpsOverrides)
    (out : List LateEntry)
    (h : late_rate_by_macro_bairro f c o = .ok out ∨ late_rate_by_platform f c o = .ok out) :
    (∀ e ∈ out, 0 < e.late_count + e.on_time_count ∧
      e.late_rate = (e.late_count : ℚ) / ((e.late_count + e.on_time_count : ℕ) : ℚ)) ∧
    ∀ n : ℕ, safeRate n 0 = 0 := by
  refine ⟨?_, fun n => by unfold safeRate; rw [if_pos rfl]⟩
  intro e hemem
  rcases h with h | h
  · obtain ⟨fr, rc, kc, dc, ec, happ, hm, hd, he2, hout⟩ :=
      late_rate_by_macro_ok f c o out h
    rw [hout] at hemem
    have hel := (mem_sortByRateDesc _ e).mp hemem
    have props := lateTable_entry_props _ e hel
    exact ⟨props.1, props.2.2.1⟩
  · obtain ⟨fr, rc, kc, dc, ec, happ, hm, hd, he2, hout⟩ :=
      late_rate_by_platform_ok f c o out h
    rw [hout] at hemem
    have hel := (mem_sortByRateDesc _ e).mp hemem
    have props := lateTable_entry_props _ e hel
    exact ⟨props.1, props.2.2.1⟩

/-- C7 witness: the division form at the concrete output of
late_rate_by_platform on the three-row scenario dataset. -/
theorem C7_late_rate_division_witness :
    (∀ e ∈ [(⟨"B", 1, 0, 1⟩ : LateEntry), ⟨"A", 1, 1, 1/2⟩],
      0 < e.late_count + e.on_time_count ∧
      e.late_rate = (e.late_count : ℚ) / ((e.late_count + e.on_time_count : ℕ) : ℚ)) ∧
    ∀ n : ℕ, safeRate n 0 = 0 :=
  C7_late_rate_division
    (⟨["platform", "actual_delivery_minutes", "eta_minutes_quote"],
      [[("platform", Val.str "A"), ("actual_delivery_minutes", Val.num 30),
        ("eta_minutes_quote", Val.num 25)],
       [("platform", Val.str "A"), ("actual_delivery_minutes", Val.num 20),
        ("eta_minutes_quote", Val.num 25)],
       [("platform", Val.str "B"), ("actual_delivery_minutes", Val.num 40),
        ("eta_minutes_quote", Val.num 20)]]⟩ : Frame)
    opsNoCriteria opsNoOverrides
    [⟨"B", 1, 0, 1⟩, ⟨"A", 1, 1, 1/2⟩]
    (Or.inr (by with_unfolding_all rfl))

/-! ### Claim C10 -/

/-- C10: in every output row of the grouped late-rate operations, the counts
are naturals (hence non-negative), late_count + on_time_count equals the
number of rows of that group in the filtered dataset, and late_rate lies in
[0, 1]. -/
theorem C10_late_rate_count_invariants (f : Frame) (c : OpsCriteria)
    (o : OpsOverrides) (out : List LateEntry) :
    (late_rate_by_macro_bairro f c o = .ok out →
      ∃ fr rc kc, opsApplyGlobalFilters f
          ⟨c.start_date, c.end_date, c.platform, c.macro_bairro, none,
           c.threshold_min⟩ o = .ok (fr, rc) ∧
        rc.mcc = some kc ∧
        ∀ e ∈ out,
          e.late_count + e.on_time_count =
            (fr.rows.filter (fun r => valToStr (r.get kc) == e.key)).length ∧
          0 ≤ e.late_rate ∧ e.late_rate ≤ 1) ∧
    (late_rate_by_platform f c o = .ok out →
      ∃ fr rc kc, opsApplyGlobalFilters f
          ⟨c.start_date, c.end_date, c.platform, c.macro_bairro, none,
           c.threshold_min⟩ o = .ok (fr, rc) ∧
        rc.plc = some kc ∧
        ∀ e ∈ out,
          e.late_count + e.on_time_count =
            (fr.rows.filter (fun r => valToStr (r.get kc) == e.key)).length ∧
          0 ≤ e.late_rate ∧ e.late_rate ≤ 1) := by
  constructor
  · intro h
    obtain ⟨fr, rc, kc, dc, ec, happ, hm, hd, he2, hout⟩ :=
      late_rate_by_macro_ok f c o out h
    refine ⟨fr, rc, kc, happ, hm, ?_⟩
    intro e hemem
    rw [hout] at hemem
    have hel := (mem_sortByRateDesc _ e).mp hemem
    have props := lateTable_entry_props _ e hel
    refine ⟨?_, props.2.2.2.1, props.2.2.2.2⟩
    rw [props.2.1]
    unfold latePairs
    exact length_filter_map_eq _ _ fr.rows
  · intro h
    obtain ⟨fr, rc, kc, dc, ec, happ, hm, hd, he2, hout⟩ :=
      late_rate_by_platform_ok f c o out h
    refine ⟨fr, rc, kc, happ, hm, ?_⟩
    intro e hemem
    rw [hout] at hemem
    have hel := (mem_sortByRateDesc _ e).mp hemem
    have props := lateTable_entry_props _ e hel
    refine ⟨?_, props.2.2.2.1, props.2.2.2.2⟩
    rw [props.2.1]
    unfold latePairs
    exact length_filter_map_eq _ _ fr.rows

/-- Dataset of the C10 witness. -/
def C10frame : Frame :=
  ⟨["macro_bairro", "actual_delivery_minutes", "eta_minutes_quote"],
   [[("macro_bairro", Val.str "Centro"), ("actual_delivery_minutes", Val.num 30),
     ("eta_minutes_quote", Val.num 25)]]⟩

/-- C10 witness: the count invariant at the concrete one-row macro dataset. -/
theorem C10_late_rate_count_invariants_witness :
    ∃ fr rc kc, opsApplyGlobalFilters C10frame
        ⟨opsNoCriteria.start_date, opsNoCriteria.end_date, opsNoCriteria.platform,
         opsNoCriteria.macro_bairro, none, opsNoCriteria.threshold_min⟩
        opsNoOverrides = .ok (fr, rc) ∧
      rc.mcc = some kc ∧
      ∀ e ∈ [(⟨"Centro", 1, 0, 1⟩ : LateEntry)],
        e.late_count + e.on_time_count =
          (fr.rows.filter (fun r => valToStr (r.get kc) == e.key)).length ∧
        0 ≤ e.late_rate ∧ e.late_rate ≤ 1 :=
  (C10_late_rate_count_invariants C10frame opsNoCriteria opsNoOverrides
    [⟨"Centro", 1, 0, 1⟩]).1 (by with_unfolding_all rfl)

end Dashboard
